import Mathlib

/-!
# Verification of the Comment Analysis Pipeline (`checkvibe/views.py`)

A shallow embedding of the analysis pipeline of `EmotionYouTubeAnalyzer`
and the `analyze` view, together with proofs of the specified properties.

External collaborators (the metadata client, the sentiment scorer, the
language detector, the language-name lookup and the word-cloud renderer)
are modelled as explicit function parameters; the code of the repository
is translated function by function.  Python floats are modelled by `ℚ`,
Python's `round(x, 1)` by round-half-to-even at one decimal digit.
-/

namespace CheckVibe

/-- One entry of a statistics breakdown, mirroring the dictionaries
`{'name': …, 'count': …, 'percentage': …}` built in
`get_sentiment_statistics` / `get_language_statistics`. -/
structure RankedStat where
  name : String
  count : Nat
  percentage : ℚ
deriving Repr, DecidableEq

/-- Round-half-to-even on `ℚ`, the rounding used by Python's `round`. -/
def roundHalfEven (q : ℚ) : ℤ :=
  if Int.fract q < 1/2 then ⌊q⌋
  else if 1/2 < Int.fract q then ⌊q⌋ + 1
  else if ⌊q⌋ % 2 = 0 then ⌊q⌋ else ⌊q⌋ + 1

/-- Python's `round(q, 1)`: round to one decimal digit. -/
def pyRound1 (q : ℚ) : ℚ := (roundHalfEven (q * 10) : ℚ) / 10

/-- The distinct elements of a list in order of first occurrence: the key
order produced by `collections.Counter` and by `pandas.value_counts`
before sorting. -/
def firstSeen : List String → List String
  | [] => []
  | x :: xs => x :: firstSeen (xs.filter (fun y => y ≠ x))
termination_by l => l.length
decreasing_by
  simp only [List.length_cons]
  exact Nat.lt_succ_of_le (List.length_filter_le _ _)

/-- Structurally recursive variant of the first-seen scan, carrying the
labels already seen; used to evaluate `firstSeen` inside the kernel. -/
def firstSeenAux (seen : List String) : List String → List String
  | [] => []
  | x :: xs =>
    if x ∈ seen then firstSeenAux seen xs
    else x :: firstSeenAux (x :: seen) xs

/-- First-seen scan via the structural accumulator version. -/
def firstSeenStruct (l : List String) : List String := firstSeenAux [] l

/-- Insert a stat into a list, after every element of strictly larger
count: one step of a stable insertion sort by `count` descending. -/
def insertDesc (x : RankedStat) : List RankedStat → List RankedStat
  | [] => [x]
  | y :: ys => if x.count < y.count then y :: insertDesc x ys else x :: y :: ys

/-- Stable sort by `count` descending: the behaviour of Python's
`sorted(stats, key=lambda x: x['count'], reverse=True)` (which is stable,
preserving the input order among equal counts). -/
def sortCountDesc (l : List RankedStat) : List RankedStat :=
  l.foldr insertDesc []

/-- The stat record built for one label: its tally in `labels` and its
percentage `round((count / total) * 100, 1)`. -/
def mkStat (labels : List String) (total : Nat) (name : String) : RankedStat :=
  { name := name
    count := labels.count name
    percentage := pyRound1 (((labels.count name : ℚ) / (total : ℚ)) * 100) }

/-- The per-label tally in discovery order, before sorting. -/
def tallyStats (labels : List String) (total : Nat) : List RankedStat :=
  (firstSeen labels).map (mkStat labels total)

/-- Tally the labels in first-seen order, annotate with percentages, and
sort by count descending (stable): the aggregation shared by
`get_sentiment_statistics` and `get_language_statistics`. -/
def aggregateStats (labels : List String) (total : Nat) : List RankedStat :=
  sortCountDesc (tallyStats labels total)

/-- The record returned by `analyze_sentiment`: the label and the raw
polarity score. -/
structure SentimentResult where
  sentiment : String
  polarity : ℚ
deriving Repr, DecidableEq

/-- `EmotionYouTubeAnalyzer.analyze_sentiment`, with the TextBlob polarity
scorer abstracted as `score`. -/
def analyze_sentiment (score : String → ℚ) (text : String) : SentimentResult :=
  { sentiment :=
      if score text > 1/10 then "positive"
      else if score text < -(1/10) then "negative"
      else "neutral"
    polarity := score text }

/-- Python's `str.strip()`: remove leading and trailing whitespace. -/
def pyStrip (s : String) : String :=
  String.mk (((s.data.dropWhile Char.isWhitespace).reverse.dropWhile
    Char.isWhitespace).reverse)

/-- `EmotionYouTubeAnalyzer.get_lang_full_name`, with the `pycountry`
code→name table abstracted as `lookup` (`none` models both an unknown
code, i.e. `pycountry.languages.get` returning `None` and `.name` raising
`AttributeError`, and a missing table, i.e. `NameError`). -/
def get_lang_full_name (lookup : String → Option String) (code : String) : String :=
  if code = "unknown" then "Unknown"
  else
    match lookup code with
    | some name => name
    | none => code

/-- The per-comment labelling step of `get_language_statistics`, with the
`langdetect` detector abstracted as `detect` (`none` models
`LangDetectException`). -/
def classify_language (detect : String → Option String)
    (lookup : String → Option String) (text : String) : String :=
  if pyStrip text ≠ "" then
    match detect text with
    | some code => get_lang_full_name lookup code
    | none => "Unknown"
  else "Unknown"

/-- `EmotionYouTubeAnalyzer.get_sentiment_statistics`, applied to the
`sentiment` column of the data frame. -/
def get_sentiment_statistics (sentiments : List String) : List RankedStat :=
  aggregateStats sentiments sentiments.length

/-- `EmotionYouTubeAnalyzer.get_language_statistics`, applied to the
`text` column of the data frame. -/
def get_language_statistics (detect lookup : String → Option String)
    (texts : List String) : List RankedStat :=
  aggregateStats (texts.map (classify_language detect lookup)) texts.length

/-- The character class `[0-9A-Za-z_-]` of the video-id patterns. -/
def isIdChar (c : Char) : Bool :=
  c.isDigit || (('A' ≤ c && c ≤ 'Z') || ('a' ≤ c && c ≤ 'z')) || c = '_' || c = '-'

/-- Match the capture group `([0-9A-Za-z_-]{11})` at the front of `cs`:
exactly 11 characters of the class, returned as captured. -/
def matchIdAt (cs : List Char) : Option (List Char) :=
  if (cs.take 11).length = 11 ∧ (cs.take 11).all isIdChar = true then
    some (cs.take 11)
  else none

/-- Try, at the current position, each literal alternative of a pattern's
non-capturing prefix in order, followed by the 11-character capture group
(`(?:v=|\/)`, `(?:embed\/)`, `(?:v\/)` are all of this shape). -/
def tryAlts : List (List Char) → List Char → Option (List Char)
  | [], _ => none
  | p :: ps, cs =>
    if p.isPrefixOf cs then
      match matchIdAt (cs.drop p.length) with
      | some tk => some tk
      | none => tryAlts ps cs
    else tryAlts ps cs

/-- `re.search` for a pattern `(?:alt1|alt2|…)([0-9A-Za-z_-]{11})`:
scan positions left to right and return the leftmost capture.  (The
trailing `.*` of the first pattern always matches and binds nothing.) -/
def searchPat (alts : List (List Char)) : List Char → Option (List Char)
  | [] => none
  | c :: rest =>
    match tryAlts alts (c :: rest) with
    | some tk => some tk
    | none => searchPat alts rest

/-- `EmotionYouTubeAnalyzer.extract_video_id`: try the three patterns in
order and return the first match's captured group. -/
def extract_video_id (url : String) : Option String :=
  match searchPat [['v', '='], ['/']] url.data with
  | some tk => some (String.mk tk)
  | none =>
    match searchPat [['e', 'm', 'b', 'e', 'd', '/']] url.data with
    | some tk => some (String.mk tk)
    | none =>
      match searchPat [['v', '/']] url.data with
      | some tk => some (String.mk tk)
      | none => none

/-- The `snippet` part of one item of the upstream videos response. -/
structure VideoSnippet where
  title : String
  channelTitle : String
deriving Repr, DecidableEq

/-- The `statistics` part of one item of the upstream videos response;
`none` models a statistics field absent from the response. -/
structure VideoStats where
  viewCount : Option Int
  likeCount : Option Int
  commentCount : Option Int
deriving Repr, DecidableEq

/-- One item of the upstream videos response. -/
structure VideoItem where
  snippet : VideoSnippet
  statistics : VideoStats
deriving Repr, DecidableEq

/-- The record returned by `get_video_info`. -/
structure ItemInfo where
  title : String
  channel : String
  views : Int
  likes : Int
  comments : Int
deriving Repr, DecidableEq

/-- `EmotionYouTubeAnalyzer.get_video_info`, applied to the item list of
the upstream response: raise (`Except.error`) when the list is empty,
otherwise read the first item, substituting `0` for each absent
statistics field (`.get('viewCount', 0)` etc.). -/
def get_video_info (items : List VideoItem) : Except String ItemInfo :=
  match items with
  | [] => Except.error "Video not found."
  | v :: _ =>
    Except.ok
      { title := v.snippet.title
        channel := v.snippet.channelTitle
        views := v.statistics.viewCount.getD 0
        likes := v.statistics.likeCount.getD 0
        comments := v.statistics.commentCount.getD 0 }

/-- One page of the upstream `commentThreads().list` response: the
comment texts of its items and the optional `nextPageToken`. -/
structure PageResponse where
  items : List String
  nextPageToken : Option String

/-- The `while` loop of `EmotionYouTubeAnalyzer.get_comments`.  The
upstream client is abstracted as `respond`, mapping the request index and
the requested `maxResults` to the response page.  `fuel` bounds the
number of iterations (the Python loop has no such bound; `none` means the
fuel was exhausted while the loop would have continued).  Returns the
collected comments together with the list of requested page sizes. -/
def getCommentsLoop (respond : Nat → Nat → PageResponse) (maxComments : Nat) :
    Nat → Nat → List String → List Nat → Option (List String × List Nat)
  | 0, _, _, _ => none
  | fuel + 1, i, acc, sizes =>
    if acc.length < maxComments then
      match (respond i (min 100 (maxComments - acc.length))).nextPageToken with
      | none =>
        some (acc ++ (respond i (min 100 (maxComments - acc.length))).items,
          sizes ++ [min 100 (maxComments - acc.length)])
      | some _ =>
        getCommentsLoop respond maxComments fuel (i + 1)
          (acc ++ (respond i (min 100 (maxComments - acc.length))).items)
          (sizes ++ [min 100 (maxComments - acc.length)])
    else some (acc, sizes)

/-- `EmotionYouTubeAnalyzer.get_comments`: run the pagination loop from
an empty collection. -/
def get_comments (respond : Nat → Nat → PageResponse) (maxComments fuel : Nat) :
    Option (List String × List Nat) :=
  getCommentsLoop respond maxComments fuel 0 [] []

/-- Python's `str.isdigit` (over ASCII): non-empty and all digits. -/
def pyIsDigit (s : String) : Bool :=
  !s.isEmpty && s.data.all Char.isDigit

/-- `int(...)` applied to a digits-only string. -/
def digitsToNat (s : String) : Nat :=
  s.data.foldl (fun n c => 10 * n + (c.toNat - 48)) 0

/-- The `max_comments` handling of the `analyze` view:
`request.POST.get("max_comments", "800").strip()`, then `int` of it when
it is digits-only, else the default `800`.  `none` models an absent
parameter. -/
def parse_max_comments (posted : Option String) : Nat :=
  if pyIsDigit (pyStrip (posted.getD "800")) then
    digitsToNat (pyStrip (posted.getD "800"))
  else 800

/-- `EmotionYouTubeAnalyzer.generate_wordcloud_image`, with the
`WordCloud` rendering and PNG/base64 encoding chain abstracted as
`render`: `None` for an empty or whitespace-only text, otherwise the
data-URL of the rendered image. -/
def generate_wordcloud_image (render : String → String) (text : String) :
    Option String :=
  if pyStrip text = "" then none
  else some ("data:image/png;base64," ++ render text)

/-- The final analysis report assembled by `analyze_video`. -/
structure AnalysisReport where
  video_id : String
  video_info : ItemInfo
  sentiment_stats : List RankedStat
  language_stats : List RankedStat
  total_analyzed : Nat
  wordcloud_image : Option String

/-- The report-assembly tail of `EmotionYouTubeAnalyzer.analyze_video`
(lines after the comments were fetched and found non-empty): classify
each comment, compute both statistics, join all texts with spaces, clean
them (`clean` abstracts `clean_text_for_wordcloud`, whose TextBlob
part-of-speech tagger is external), generate the word cloud and assemble
the report. -/
def buildReport (score : String → ℚ) (detect lookup : String → Option String)
    (clean render : String → String) (vid : String) (info : ItemInfo)
    (comments : List String) : AnalysisReport :=
  { video_id := vid
    video_info := info
    sentiment_stats :=
      get_sentiment_statistics
        (comments.map (fun t => (analyze_sentiment score t).sentiment))
    language_stats := get_language_statistics detect lookup comments
    total_analyzed := comments.length
    wordcloud_image :=
      generate_wordcloud_image render
        (clean (String.intercalate " " comments)) }

/-! ## Lemmas about the stable descending sort -/

lemma mem_insertDesc (z x : RankedStat) (s : List RankedStat) :
    z ∈ insertDesc x s ↔ z = x ∨ z ∈ s := by
  induction s with
  | nil => simp [insertDesc]
  | cons y ys ih =>
    rw [insertDesc]
    split
    · simp only [List.mem_cons, ih]
      tauto
    · simp only [List.mem_cons]

lemma insertDesc_perm (x : RankedStat) (s : List RankedStat) :
    List.Perm (insertDesc x s) (x :: s) := by
  induction s with
  | nil => simp [insertDesc]
  | cons y ys ih =>
    rw [insertDesc]
    split
    · exact ((ih.cons y).trans (List.Perm.swap x y ys))
    · exact List.Perm.refl _

lemma sortCountDesc_perm (l : List RankedStat) :
    List.Perm (sortCountDesc l) l := by
  induction l with
  | nil => exact List.Perm.refl _
  | cons a l ih =>
    have : sortCountDesc (a :: l) = insertDesc a (sortCountDesc l) := rfl
    rw [this]
    exact (insertDesc_perm a (sortCountDesc l)).trans (ih.cons a)

lemma insertDesc_pairwise (x : RankedStat) (s : List RankedStat)
    (hs : s.Pairwise (fun a b => b.count ≤ a.count)) :
    (insertDesc x s).Pairwise (fun a b => b.count ≤ a.count) := by
  induction s with
  | nil => simp [insertDesc]
  | cons y ys ih =>
    rw [List.pairwise_cons] at hs
    obtain ⟨hy, hys⟩ := hs
    rw [insertDesc]
    split
    · rw [List.pairwise_cons]
      refine ⟨?_, ih hys⟩
      intro z hz
      rcases (mem_insertDesc z x ys).mp hz with rfl | hz2
      · omega
      · exact hy z hz2
    · rw [List.pairwise_cons]
      refine ⟨?_, List.pairwise_cons.mpr ⟨hy, hys⟩⟩
      intro z hz
      rcases List.mem_cons.mp hz with rfl | hz2
      · omega
      · have := hy z hz2
        omega

lemma sortCountDesc_pairwise (l : List RankedStat) :
    (sortCountDesc l).Pairwise (fun a b => b.count ≤ a.count) := by
  induction l with
  | nil => simp [sortCountDesc]
  | cons a l ih => exact insertDesc_pairwise a (sortCountDesc l) ih

lemma filter_insertDesc (x : RankedStat) (s : List RankedStat) (c : Nat) :
    (insertDesc x s).filter (fun y => y.count == c) =
      if x.count = c then x :: s.filter (fun y => y.count == c)
      else s.filter (fun y => y.count == c) := by
  induction s with
  | nil =>
    rw [insertDesc]
    by_cases hx : x.count = c <;> simp [List.filter_cons, hx]
  | cons y ys ih =>
    rw [insertDesc]
    split
    · rename_i hlt
      by_cases hx : x.count = c
      · have hy : ¬(y.count = c) := by omega
        simp [List.filter_cons, hx, hy, ih]
      · by_cases hy : y.count = c <;> simp [List.filter_cons, hx, hy, ih]
    · by_cases hx : x.count = c <;>
        by_cases hy : y.count = c <;>
          simp [List.filter_cons, hx, hy]

lemma sortCountDesc_filter (l : List RankedStat) (c : Nat) :
    (sortCountDesc l).filter (fun y => y.count == c) =
      l.filter (fun y => y.count == c) := by
  induction l with
  | nil => simp [sortCountDesc]
  | cons a l ih =>
    have h1 : sortCountDesc (a :: l) = insertDesc a (sortCountDesc l) := rfl
    rw [h1, filter_insertDesc]
    by_cases ha : a.count = c <;> simp [List.filter_cons, ha, ih]

/-! ## Lemmas about the first-seen tally -/

lemma mem_firstSeen (a : String) (l : List String) :
    a ∈ firstSeen l ↔ a ∈ l := by
  induction l using firstSeen.induct with
  | case1 => simp [firstSeen]
  | case2 x xs ih =>
    rw [firstSeen]
    simp only [List.mem_cons, ih, List.mem_filter, decide_eq_true_eq]
    by_cases hax : a = x <;> simp [hax]

lemma nodup_firstSeen (l : List String) : (firstSeen l).Nodup := by
  induction l using firstSeen.induct with
  | case1 => simp [firstSeen]
  | case2 x xs ih =>
    rw [firstSeen]
    refine List.nodup_cons.mpr ⟨?_, ih⟩
    intro hx
    have := (mem_firstSeen x _).mp hx
    simp [List.mem_filter] at this

lemma firstSeenAux_congr (seen1 seen2 l : List String)
    (h : ∀ a, a ∈ seen1 ↔ a ∈ seen2) :
    firstSeenAux seen1 l = firstSeenAux seen2 l := by
  induction l generalizing seen1 seen2 with
  | nil => rfl
  | cons x xs ih =>
    rw [firstSeenAux, firstSeenAux]
    by_cases hx : x ∈ seen1
    · rw [if_pos hx, if_pos ((h x).mp hx)]
      exact ih seen1 seen2 h
    · rw [if_neg hx, if_neg (fun hc => hx ((h x).mpr hc))]
      congr 1
      apply ih
      intro a
      simp only [List.mem_cons, h a]

lemma firstSeenAux_cons_seen (x : String) (seen xs : List String) :
    firstSeenAux (x :: seen) xs =
      firstSeenAux seen (xs.filter (fun y => y ≠ x)) := by
  induction xs generalizing seen with
  | nil => rfl
  | cons b bs ih =>
    by_cases hbx : b = x
    · subst hbx
      rw [firstSeenAux, if_pos (List.mem_cons_self b seen)]
      rw [ih seen]
      congr 1
      simp [List.filter_cons]
    · have hfil : (b :: bs).filter (fun y => y ≠ x) =
          b :: bs.filter (fun y => y ≠ x) := by
        simp [List.filter_cons, hbx]
      rw [firstSeenAux, hfil, firstSeenAux]
      by_cases hbs : b ∈ seen
      · rw [if_pos (by simp [List.mem_cons, hbs]), if_pos hbs]
        exact ih seen
      · rw [if_neg (by simp [List.mem_cons, hbx, hbs]), if_neg hbs]
        congr 1
        calc firstSeenAux (b :: x :: seen) bs
            = firstSeenAux (x :: b :: seen) bs := by
              apply firstSeenAux_congr
              intro a
              simp only [List.mem_cons]
              tauto
          _ = firstSeenAux (b :: seen) (bs.filter (fun y => y ≠ x)) :=
              ih (b :: seen)

lemma firstSeenStruct_eq (l : List String) : firstSeenStruct l = firstSeen l := by
  induction l using firstSeen.induct with
  | case1 => rw [firstSeen]; rfl
  | case2 x xs ih =>
    rw [firstSeen, firstSeenStruct, firstSeenAux]
    rw [if_neg (List.not_mem_nil x)]
    congr 1
    rw [firstSeenAux_cons_seen]
    exact ih

lemma count_filter_ne (l : List String) (x a : String) (h : a ≠ x) :
    (l.filter (fun y => y ≠ x)).count a = l.count a := by
  induction l with
  | nil => simp
  | cons b l ih =>
    simp only [ne_eq, decide_not] at ih ⊢
    by_cases hbx : b = x
    · subst hbx
      have hba : ¬(b = a) := fun hba => h hba.symm
      simp [List.filter_cons, List.count_cons, ih, hba]
    · simp [List.filter_cons, List.count_cons, hbx, ih]

lemma length_filter_split (l : List String) (x : String) :
    l.length = l.count x + (l.filter (fun y => y ≠ x)).length := by
  induction l with
  | nil => simp
  | cons b l ih =>
    simp only [ne_eq, decide_not] at ih ⊢
    by_cases hbx : b = x
    · subst hbx
      simp [List.filter_cons, List.count_cons, ih]
      omega
    · simp [List.filter_cons, List.count_cons, hbx, ih]
      omega

lemma sum_firstSeen_count (l : List String) :
    ((firstSeen l).map (fun a => l.count a)).sum = l.length := by
  induction l using firstSeen.induct with
  | case1 => simp [firstSeen]
  | case2 x xs ih =>
    rw [firstSeen]
    rw [List.map_cons, List.sum_cons]
    have hcongr :
        (firstSeen (xs.filter (fun y => y ≠ x))).map (fun a => (x :: xs).count a) =
          (firstSeen (xs.filter (fun y => y ≠ x))).map
            (fun a => (xs.filter (fun y => y ≠ x)).count a) := by
      apply List.map_congr_left
      intro a ha
      have hmem := (mem_firstSeen a _).mp ha
      have hne : a ≠ x := by
        rcases List.mem_filter.mp hmem with ⟨_, hd⟩
        simpa using hd
      have h1 : (x :: xs).count a = xs.count a := by
        have : ¬(x = a) := fun hxa => hne hxa.symm
        simp [List.count_cons, this]
      rw [h1, count_filter_ne xs x a hne]
    rw [hcongr, ih]
    have hx : (x :: xs).count x = xs.count x + 1 := by
      simp [List.count_cons]
    have hsplit := length_filter_split xs x
    simp only [List.length_cons]
    omega

/-! ## Lemmas about the aggregated statistics -/

lemma mem_aggregateStats (s : RankedStat) (labels : List String) (total : Nat) :
    s ∈ aggregateStats labels total ↔ s ∈ tallyStats labels total :=
  (sortCountDesc_perm (tallyStats labels total)).mem_iff

lemma aggregateStats_fields (s : RankedStat) (labels : List String) (total : Nat)
    (hs : s ∈ aggregateStats labels total) :
    s.count = labels.count s.name ∧
      s.percentage = pyRound1 (((s.count : ℚ) / (total : ℚ)) * 100) := by
  rw [mem_aggregateStats] at hs
  rcases List.mem_map.mp hs with ⟨a, _, rfl⟩
  exact ⟨rfl, rfl⟩

lemma tallyStats_map_count (labels : List String) (total : Nat) :
    (tallyStats labels total).map (fun s => s.count) =
      (firstSeen labels).map (fun a => labels.count a) := by
  rw [tallyStats, List.map_map]
  rfl

lemma tallyStats_map_name (labels : List String) (total : Nat) :
    (tallyStats labels total).map (fun s => s.name) = firstSeen labels := by
  rw [tallyStats, List.map_map]
  exact List.map_id _

lemma aggregateStats_sum_count (labels : List String) (total : Nat) :
    ((aggregateStats labels total).map (fun s => s.count)).sum = labels.length := by
  have hperm :
      List.Perm ((aggregateStats labels total).map (fun s => s.count))
        ((tallyStats labels total).map (fun s => s.count)) :=
    (sortCountDesc_perm (tallyStats labels total)).map _
  rw [hperm.sum_eq, tallyStats_map_count]
  exact sum_firstSeen_count labels

lemma aggregateStats_names_perm (labels : List String) (total : Nat) :
    List.Perm ((aggregateStats labels total).map (fun s => s.name))
      (firstSeen labels) := by
  have hperm :
      List.Perm ((aggregateStats labels total).map (fun s => s.name))
        ((tallyStats labels total).map (fun s => s.name)) :=
    (sortCountDesc_perm (tallyStats labels total)).map _
  rw [tallyStats_map_name] at hperm
  exact hperm

lemma aggregateStats_names_nodup (labels : List String) (total : Nat) :
    ((aggregateStats labels total).map (fun s => s.name)).Nodup :=
  (aggregateStats_names_perm labels total).nodup_iff.mpr (nodup_firstSeen labels)

lemma aggregateStats_mem_name (labels : List String) (total : Nat) (a : String) :
    a ∈ (aggregateStats labels total).map (fun s => s.name) ↔ a ∈ labels := by
  rw [(aggregateStats_names_perm labels total).mem_iff]
  exact mem_firstSeen a labels

lemma aggregateStats_pairwise (labels : List String) (total : Nat) :
    (aggregateStats labels total).Pairwise (fun a b => b.count ≤ a.count) :=
  sortCountDesc_pairwise (tallyStats labels total)

lemma get_language_statistics_eval (detect lookup : String → Option String)
    (texts : List String) :
    get_language_statistics detect lookup texts =
      sortCountDesc
        ((firstSeenStruct (texts.map (classify_language detect lookup))).map
          (mkStat (texts.map (classify_language detect lookup)) texts.length)) := by
  rw [get_language_statistics, aggregateStats, tallyStats, firstSeenStruct_eq]

lemma aggregateStats_filter (labels : List String) (total c : Nat) :
    (aggregateStats labels total).filter (fun s => s.count == c) =
      (tallyStats labels total).filter (fun s => s.count == c) :=
  sortCountDesc_filter (tallyStats labels total) c

/-! ## Lemmas about the pagination loop -/

lemma getCommentsLoop_succ (respond : Nat → Nat → PageResponse) (M fuel i : Nat)
    (acc : List String) (sizes : List Nat) :
    getCommentsLoop respond M (fuel + 1) i acc sizes =
      (if acc.length < M then
        match (respond i (min 100 (M - acc.length))).nextPageToken with
        | none =>
          some (acc ++ (respond i (min 100 (M - acc.length))).items,
            sizes ++ [min 100 (M - acc.length)])
        | some _ =>
          getCommentsLoop respond M fuel (i + 1)
            (acc ++ (respond i (min 100 (M - acc.length))).items)
            (sizes ++ [min 100 (M - acc.length)])
      else some (acc, sizes)) := rfl

lemma getCommentsLoop_length_le (respond : Nat → Nat → PageResponse) (M : Nat)
    (hsize : ∀ i s, ((respond i s).items).length ≤ s) :
    ∀ (fuel i : Nat) (acc : List String) (sizes : List Nat)
      (r : List String × List Nat),
      acc.length ≤ M → getCommentsLoop respond M fuel i acc sizes = some r →
      r.1.length ≤ M := by
  intro fuel
  induction fuel with
  | zero => intro i acc sizes r _ h; simp [getCommentsLoop] at h
  | succ fuel ih =>
    intro i acc sizes r hacc h
    rw [getCommentsLoop] at h
    by_cases hlt : acc.length < M
    · rw [if_pos hlt] at h
      have hlen :
          (acc ++ (respond i (min 100 (M - acc.length))).items).length ≤ M := by
        have := hsize i (min 100 (M - acc.length))
        simp only [List.length_append]
        omega
      rcases htok : (respond i (min 100 (M - acc.length))).nextPageToken with _ | t
      · rw [htok] at h
        simp only [Option.some.injEq] at h
        rw [← h]
        exact hlen
      · rw [htok] at h
        exact ih (i + 1) _ _ r hlen h
    · rw [if_neg hlt] at h
      simp only [Option.some.injEq] at h
      rw [← h]
      exact hacc

lemma getCommentsLoop_terminates_of_progress (respond : Nat → Nat → PageResponse)
    (M : Nat)
    (hprog : ∀ i s, (respond i s).nextPageToken ≠ none → (respond i s).items ≠ []) :
    ∀ (fuel i : Nat) (acc : List String) (sizes : List Nat),
      M - acc.length < fuel →
      (getCommentsLoop respond M fuel i acc sizes).isSome := by
  intro fuel
  induction fuel with
  | zero => intro i acc sizes h; omega
  | succ fuel ih =>
    intro i acc sizes hfuel
    rw [getCommentsLoop]
    by_cases hlt : acc.length < M
    · rw [if_pos hlt]
      rcases htok : (respond i (min 100 (M - acc.length))).nextPageToken with _ | t
      · simp
      · have hne : (respond i (min 100 (M - acc.length))).items ≠ [] := by
          apply hprog
          rw [htok]
          exact Option.some_ne_none t
        have hpos : 0 < ((respond i (min 100 (M - acc.length))).items).length :=
          List.length_pos.mpr hne
        apply ih
        simp only [List.length_append]
        omega
    · rw [if_neg hlt]
      simp

lemma getCommentsLoop_terminates_of_last (respond : Nat → Nat → PageResponse)
    (M N : Nat) (hN : ∀ s, (respond N s).nextPageToken = none) :
    ∀ (fuel i : Nat) (acc : List String) (sizes : List Nat),
      i ≤ N → N - i < fuel →
      (getCommentsLoop respond M fuel i acc sizes).isSome := by
  intro fuel
  induction fuel with
  | zero => intro i acc sizes _ h; omega
  | succ fuel ih =>
    intro i acc sizes hiN hfuel
    rw [getCommentsLoop]
    by_cases hlt : acc.length < M
    · rw [if_pos hlt]
      rcases htok : (respond i (min 100 (M - acc.length))).nextPageToken with _ | t
      · simp
      · have hiN2 : i ≠ N := by
          intro hEq
          rw [hEq, hN] at htok
          exact Option.noConfusion htok
        apply ih
        · omega
        · omega
    · rw [if_neg hlt]
      simp

/-! ## Lemmas about the video-id pattern search -/

lemma matchIdAt_some (cs tk : List Char) (h : matchIdAt cs = some tk) :
    tk.length = 11 ∧ tk.all isIdChar = true := by
  rw [matchIdAt] at h
  split at h
  · rename_i hcond
    simp only [Option.some.injEq] at h
    subst h
    exact hcond
  · exact Option.noConfusion h

lemma tryAlts_some (alts : List (List Char)) (cs tk : List Char)
    (h : tryAlts alts cs = some tk) : tk.length = 11 ∧ tk.all isIdChar = true := by
  induction alts with
  | nil => simp [tryAlts] at h
  | cons p ps ih =>
    rw [tryAlts] at h
    split at h
    · rcases hm : matchIdAt (cs.drop p.length) with _ | tk2
      · rw [hm] at h
        exact ih h
      · rw [hm] at h
        simp only [Option.some.injEq] at h
        subst h
        exact matchIdAt_some _ _ hm
    · exact ih h

lemma searchPat_some (alts : List (List Char)) (cs tk : List Char)
    (h : searchPat alts cs = some tk) : tk.length = 11 ∧ tk.all isIdChar = true := by
  induction cs with
  | nil => simp [searchPat] at h
  | cons c rest ih =>
    rw [searchPat] at h
    rcases ht : tryAlts alts (c :: rest) with _ | tk2
    · rw [ht] at h
      exact ih h
    · rw [ht] at h
      simp only [Option.some.injEq] at h
      subst h
      exact tryAlts_some _ _ _ ht

/-! ## Claim theorems -/

/-- C1: sentiment classification labels a comment positive exactly when
its polarity exceeds 0.1, negative exactly when the polarity is below
-0.1, and neutral otherwise; polarity 0.1 maps to neutral, 0.1001 to
positive, -0.1 to neutral, -0.1001 to negative; and the returned record
carries both the label and the raw polarity score. -/
theorem sentiment_threshold_policy (score : String → ℚ) (text : String) :
    ((analyze_sentiment score text).sentiment = "positive" ↔
        1/10 < score text)
  ∧ ((analyze_sentiment score text).sentiment = "negative" ↔
        score text < -(1/10))
  ∧ ((analyze_sentiment score text).sentiment = "neutral" ↔
        (-(1/10) ≤ score text ∧ score text ≤ 1/10))
  ∧ (analyze_sentiment score text).polarity = score text
  ∧ (score text = 1/10 → (analyze_sentiment score text).sentiment = "neutral")
  ∧ (score text = 1001/10000 →
        (analyze_sentiment score text).sentiment = "positive")
  ∧ (score text = -(1/10) →
        (analyze_sentiment score text).sentiment = "neutral")
  ∧ (score text = -(1001/10000) →
        (analyze_sentiment score text).sentiment = "negative") := by
  have hlab : (analyze_sentiment score text).sentiment =
      (if 1/10 < score text then "positive"
       else if score text < -(1/10) then "negative" else "neutral") := rfl
  refine ⟨?_, ?_, ?_, rfl, ?_, ?_, ?_, ?_⟩ <;> rw [hlab]
  · split_ifs with h1 h2
    · exact ⟨fun _ => h1, fun _ => rfl⟩
    · exact ⟨fun h => absurd h (by simp), fun h => absurd h h1⟩
    · exact ⟨fun h => absurd h (by simp), fun h => absurd h h1⟩
  · split_ifs with h1 h2
    · constructor
      · intro h
        exact absurd h (by simp)
      · intro h
        exfalso
        linarith
    · exact ⟨fun _ => h2, fun _ => rfl⟩
    · exact ⟨fun h => absurd h (by simp), fun h => absurd h h2⟩
  · split_ifs with h1 h2
    · constructor
      · intro h
        exact absurd h (by simp)
      · rintro ⟨_, hb⟩
        exfalso
        linarith
    · constructor
      · intro h
        exact absurd h (by simp)
      · rintro ⟨ha, _⟩
        exfalso
        linarith
    · exact ⟨fun _ => ⟨by linarith, by linarith⟩, fun _ => rfl⟩
  · intro he
    rw [he]
    norm_num
  · intro he
    rw [he]
    norm_num
  · intro he
    rw [he]
    norm_num
  · intro he
    rw [he]
    norm_num

/-- Witness for C1: concrete boundary polarities 0.1 and 0.1001. -/
theorem sentiment_threshold_policy_witness :
    (analyze_sentiment (fun _ => 1/10) "boundary text").sentiment = "neutral"
  ∧ (analyze_sentiment (fun _ => 1001/10000) "boundary text").sentiment =
      "positive" :=
  ⟨(sentiment_threshold_policy (fun _ => 1/10) "boundary text").2.2.2.2.1 rfl,
   (sentiment_threshold_policy
      (fun _ => 1001/10000) "boundary text").2.2.2.2.2.1 rfl⟩

/-- C5: the reference resolver tries its patterns in a fixed order and
returns the first match's captured token, always a string of exactly 11
characters from the class [0-9A-Za-z_-] exactly as captured; when no
pattern matches it returns no token. -/
theorem reference_resolver_spec :
    (∀ url tk, extract_video_id url = some tk →
        tk.length = 11 ∧ tk.data.all isIdChar = true)
  ∧ (∀ url tk, searchPat [['v', '='], ['/']] url.data = some tk →
        extract_video_id url = some (String.mk tk))
  ∧ (∀ url, searchPat [['v', '='], ['/']] url.data = none →
        searchPat [['e', 'm', 'b', 'e', 'd', '/']] url.data = none →
        searchPat [['v', '/']] url.data = none →
        extract_video_id url = none)
  ∧ extract_video_id "https://www.youtube.com/watch?v=dQw4w9WgXcQ" =
      some "dQw4w9WgXcQ"
  ∧ extract_video_id "no video id present" = none := by
  refine ⟨?_, ?_, ?_, by decide, by decide⟩
  · intro url tk h
    rw [extract_video_id] at h
    rcases h1 : searchPat [['v', '='], ['/']] url.data with _ | tk1
    · rw [h1] at h
      rcases h2 : searchPat [['e', 'm', 'b', 'e', 'd', '/']] url.data with _ | tk2
      · rw [h2] at h
        rcases h3 : searchPat [['v', '/']] url.data with _ | tk3
        · rw [h3] at h
          exact Option.noConfusion h
        · rw [h3] at h
          simp only [Option.some.injEq] at h
          subst h
          exact searchPat_some _ _ _ h3
      · rw [h2] at h
        simp only [Option.some.injEq] at h
        subst h
        exact searchPat_some _ _ _ h2
    · rw [h1] at h
      simp only [Option.some.injEq] at h
      subst h
      exact searchPat_some _ _ _ h1
  · intro url tk h
    rw [extract_video_id, h]
  · intro url h1 h2 h3
    rw [extract_video_id, h1, h2, h3]

/-- Witness for C5: the resolver applied to a concrete watch-URL yields
an 11-character token of the identifier class. -/
theorem reference_resolver_spec_witness :
    ("dQw4w9WgXcQ" : String).length = 11
  ∧ ("dQw4w9WgXcQ" : String).data.all isIdChar = true :=
  reference_resolver_spec.1 "https://www.youtube.com/watch?v=dQw4w9WgXcQ"
    "dQw4w9WgXcQ" (by decide)

/-- C10: for a non-empty upstream items list, get_video_info succeeds,
substituting 0 for each absent statistics field, so the returned record
always carries integer values for views, likes and comments. -/
theorem video_info_defaults (v : VideoItem) (rest : List VideoItem) :
    get_video_info (v :: rest) =
      Except.ok
        { title := v.snippet.title
          channel := v.snippet.channelTitle
          views := v.statistics.viewCount.getD 0
          likes := v.statistics.likeCount.getD 0
          comments := v.statistics.commentCount.getD 0 }
  ∧ (v.statistics.viewCount = none →
      ∃ r, get_video_info (v :: rest) = Except.ok r ∧ r.views = 0)
  ∧ (v.statistics.likeCount = none →
      ∃ r, get_video_info (v :: rest) = Except.ok r ∧ r.likes = 0)
  ∧ (v.statistics.commentCount = none →
      ∃ r, get_video_info (v :: rest) = Except.ok r ∧ r.comments = 0) := by
  refine ⟨rfl, ?_, ?_, ?_⟩
  · intro h
    refine ⟨_, rfl, ?_⟩
    show v.statistics.viewCount.getD 0 = 0
    rw [h]
    rfl
  · intro h
    refine ⟨_, rfl, ?_⟩
    show v.statistics.likeCount.getD 0 = 0
    rw [h]
    rfl
  · intro h
    refine ⟨_, rfl, ?_⟩
    show v.statistics.commentCount.getD 0 = 0
    rw [h]
    rfl

/-- Witness for C10: a concrete item with all three statistics fields
absent yields a record with views, likes and comments all 0. -/
theorem video_info_defaults_witness :
    ∃ r, get_video_info [⟨⟨"title", "chan"⟩, ⟨none, none, none⟩⟩] =
      Except.ok r ∧ r.views = 0 :=
  (video_info_defaults ⟨⟨"title", "chan"⟩, ⟨none, none, none⟩⟩ []).2.1 rfl

/-- C7 counterexample: the caller-supplied value "0" is digits-only, so
it is accepted verbatim and the pagination budget becomes 0, which is
not a positive integer: no clamping to a positive integer happens. -/
theorem max_comments_zero_not_clamped :
    parse_max_comments (some "0") = 0
  ∧ ¬(0 < parse_max_comments (some "0")) := by
  constructor
  · decide
  · decide

/-- C7 amended: the bound defaults to 800 when the parameter is absent;
a stripped value that is not digits-only silently falls back to 800; a
digits-only value is used as the non-negative integer it denotes,
possibly 0 - the code performs no clamping to a positive integer. -/
theorem max_comments_parsing (posted : Option String) :
    (posted = none → parse_max_comments posted = 800)
  ∧ (pyIsDigit (pyStrip (posted.getD "800")) = false →
      parse_max_comments posted = 800)
  ∧ (pyIsDigit (pyStrip (posted.getD "800")) = true →
      parse_max_comments posted = digitsToNat (pyStrip (posted.getD "800"))) := by
  refine ⟨?_, ?_, ?_⟩
  · intro h
    subst h
    decide
  · intro h
    rw [parse_max_comments, if_neg]
    simp [h]
  · intro h
    rw [parse_max_comments, if_pos]
    simp [h]

/-- Witness for C7 (amended): the default and the non-numeric fallback
at concrete inputs. -/
theorem max_comments_parsing_witness :
    parse_max_comments none = 800 ∧ parse_max_comments (some "12a") = 800 :=
  ⟨(max_comments_parsing none).1 rfl,
   (max_comments_parsing (some "12a")).2.1 (by decide)⟩

/-- C6 counterexample: on detection success with code "unknown" and a
missing lookup table the displayed label is "Unknown", not the raw code
"unknown", so the raw-code fallback clause of the claim fails there. -/
theorem language_sentinel_counterexample :
    classify_language (fun _ => some "unknown") (fun _ => none) "hola" =
      "Unknown"
  ∧ ("Unknown" : String) ≠ "unknown" := by
  constructor
  · decide
  · decide

/-- C6 amended: language classification is per-comment and total: an
empty or whitespace-only text is labelled "Unknown" for every detector
(detection not invoked); a detection failure yields "Unknown" and is
never propagated; on detection success the code is mapped through the
lookup, a successful lookup giving the display name and a failed lookup
(unknown code or missing table) falling back to the raw code itself -
except for the sentinel code "unknown", which is displayed as "Unknown"
without consulting the lookup. -/
theorem language_classification_amended (detect lookup : String → Option String)
    (text : String) :
    (pyStrip text = "" → classify_language detect lookup text = "Unknown")
  ∧ (pyStrip text ≠ "" → detect text = none →
      classify_language detect lookup text = "Unknown")
  ∧ (pyStrip text ≠ "" → ∀ code, detect text = some code →
      classify_language detect lookup text = get_lang_full_name lookup code)
  ∧ (∀ code lname, code ≠ "unknown" → lookup code = some lname →
      get_lang_full_name lookup code = lname)
  ∧ (∀ code, code ≠ "unknown" → lookup code = none →
      get_lang_full_name lookup code = code)
  ∧ get_lang_full_name lookup "unknown" = "Unknown" := by
  refine ⟨?_, ?_, ?_, ?_, ?_, ?_⟩
  · intro h
    rw [classify_language, if_neg]
    simp [h]
  · intro h hd
    rw [classify_language, if_pos h, hd]
  · intro h code hd
    rw [classify_language, if_pos h, hd]
  · intro code lname hne hl
    rw [get_lang_full_name, if_neg hne, hl]
  · intro code hne hl
    rw [get_lang_full_name, if_neg hne, hl]
  · rw [get_lang_full_name, if_pos rfl]

/-- Witness for C6 (amended): a whitespace-only comment and a failing
detection are both labelled "Unknown" at concrete inputs. -/
theorem language_classification_amended_witness :
    classify_language (fun _ => some "es") (fun _ => none) "  " = "Unknown"
  ∧ classify_language (fun _ => none) (fun _ => none) "hi" = "Unknown" :=
  ⟨(language_classification_amended (fun _ => some "es") (fun _ => none)
      "  ").1 (by decide),
   (language_classification_amended (fun _ => none) (fun _ => none)
      "hi").2.1 (by decide) rfl⟩

/-- C8: when the normalized corpus is empty or whitespace-only, the
word-cloud generator returns an explicit none for every renderer (the
renderer is never invoked - the report does not depend on it) and the
assembled report's wordcloud image field is none. -/
theorem empty_corpus_no_visualization (score : String → ℚ)
    (detect lookup : String → Option String)
    (clean render render2 : String → String) (vid : String) (info : ItemInfo)
    (comments : List String)
    (hempty : pyStrip (clean (String.intercalate " " comments)) = "") :
    generate_wordcloud_image render (clean (String.intercalate " " comments)) =
      none
  ∧ (buildReport score detect lookup clean render vid info
      comments).wordcloud_image = none
  ∧ (∀ text, pyStrip text = "" → generate_wordcloud_image render text = none)
  ∧ buildReport score detect lookup clean render vid info comments =
      buildReport score detect lookup clean render2 vid info comments := by
  have hg : ∀ (r : String → String) (text : String), pyStrip text = "" →
      generate_wordcloud_image r text = none := by
    intro r text h
    rw [generate_wordcloud_image, if_pos h]
  refine ⟨hg render _ hempty, ?_, fun t ht => hg render t ht, ?_⟩
  · exact hg render _ hempty
  · unfold buildReport
    rw [hg render _ hempty, hg render2 _ hempty]

/-- Witness for C8: a cleaning step that yields an empty corpus on a
concrete comment list produces a report with no wordcloud image. -/
theorem empty_corpus_no_visualization_witness :
    (buildReport (fun _ => 0) (fun _ => none) (fun _ => none) (fun _ => "")
      (fun _ => "img") "vid" ⟨"t", "c", 0, 0, 0⟩ ["hi there"]).wordcloud_image =
      none :=
  (empty_corpus_no_visualization (fun _ => 0) (fun _ => none) (fun _ => none)
    (fun _ => "") (fun _ => "img") (fun _ => "img2") "vid" ⟨"t", "c", 0, 0, 0⟩
    ["hi there"] (by decide)).2.1

/-- C2: the pagination loop requests each page with size
min(100, budget - collected) and stops when the budget is reached or no
next-page token is returned; with budget 150 and a full first page of
100 comments carrying a token, exactly 2 pages are requested, the second
with size 50; and whenever each page returns at most the requested
number of comments, the collected list never exceeds the budget. -/
theorem pagination_bound (respond : Nat → Nat → PageResponse)
    (h0len : (respond 0 100).items.length = 100)
    (h0tok : (respond 0 100).nextPageToken ≠ none)
    (h1len : (respond 1 50).items.length = 50) :
    get_comments respond 150 3 =
      some ((respond 0 100).items ++ (respond 1 50).items, [100, 50])
  ∧ ((respond 0 100).items ++ (respond 1 50).items).length = 150
  ∧ (∀ (respond2 : Nat → Nat → PageResponse) (M fuel : Nat)
      (r : List String × List Nat),
      (∀ i s, ((respond2 i s).items).length ≤ s) →
      get_comments respond2 M fuel = some r → r.1.length ≤ M) := by
  refine ⟨?_, ?_, ?_⟩
  · obtain ⟨t0, ht0⟩ := Option.ne_none_iff_exists'.mp h0tok
    rw [get_comments]
    rw [show (3 : Nat) = 2 + 1 from rfl, getCommentsLoop_succ]
    rw [if_pos (by simp)]
    have hm1 : min 100 (150 - ([] : List String).length) = 100 := by simp
    rw [hm1, ht0]
    simp only [List.nil_append]
    rw [show (2 : Nat) = 1 + 1 from rfl, getCommentsLoop_succ]
    rw [if_pos (by rw [h0len]; norm_num)]
    have hm2 : min 100 (150 - ((respond 0 100).items).length) = 50 := by
      rw [h0len]
      decide
    rw [hm2]
    rcases ht1 : (respond 1 50).nextPageToken with _ | t1
    · rfl
    · rw [show (1 : Nat) = 0 + 1 from rfl, getCommentsLoop_succ]
      rw [if_neg (by simp [h0len, h1len])]
      rfl
  · rw [List.length_append, h0len, h1len]
  · intro respond2 M fuel r hsize h
    exact getCommentsLoop_length_le respond2 M hsize fuel 0 [] [] r
      (by simp) h

/-- Witness for C2: a concrete upstream returning a full page of 100 and
then a final page of exactly the requested size. -/
theorem pagination_bound_witness :
    get_comments
      (fun i s =>
        if i = 0 then ⟨List.replicate 100 "c", some "tok"⟩
        else ⟨List.replicate s "d", none⟩) 150 3 =
      some (List.replicate 100 "c" ++ List.replicate 50 "d", [100, 50]) := by
  have h :=
    (pagination_bound
      (fun i s =>
        if i = 0 then ⟨List.replicate 100 "c", some "tok"⟩
        else ⟨List.replicate s "d", none⟩)
      (by simp) (by simp) (by simp)).1
  simpa using h

/-- C9: when the upstream protocol is honored (pages respect the
requested size, and either some request eventually carries no next-page
token or every tokened page contributes at least one comment), the
pagination loop terminates - some finite fuel returns a result - and the
invariant collected ≤ max_comments holds at every iteration state. -/
theorem pagination_termination (respond : Nat → Nat → PageResponse) (M : Nat)
    (hsize : ∀ i s, ((respond i s).items).length ≤ s)
    (hproto : (∃ N, ∀ s, (respond N s).nextPageToken = none) ∨
      (∀ i s, (respond i s).nextPageToken ≠ none → (respond i s).items ≠ [])) :
    (∃ fuel r, get_comments respond M fuel = some r)
  ∧ (∀ fuel i acc sizes r, acc.length ≤ M →
      getCommentsLoop respond M fuel i acc sizes = some r →
      r.1.length ≤ M) := by
  constructor
  · rcases hproto with ⟨N, hN⟩ | hprog
    · have hsome :=
        getCommentsLoop_terminates_of_last respond M N hN (N + 1) 0 [] []
          (Nat.zero_le N) (by omega)
      rcases Option.isSome_iff_exists.mp hsome with ⟨r, hr⟩
      exact ⟨N + 1, r, hr⟩
    · have hsome :=
        getCommentsLoop_terminates_of_progress respond M hprog (M + 1) 0 [] []
          (by simp)
      rcases Option.isSome_iff_exists.mp hsome with ⟨r, hr⟩
      exact ⟨M + 1, r, hr⟩
  · intro fuel i acc sizes r hacc h
    exact getCommentsLoop_length_le respond M hsize fuel i acc sizes r hacc h

/-- Witness for C9: a concrete upstream whose first response has no
next-page token terminates with some fuel. -/
theorem pagination_termination_witness :
    (∀ i s,
      (((fun _ _ => (⟨[], none⟩ : PageResponse)) : Nat → Nat → PageResponse)
        i s).items.length ≤ s)
  ∧ (∃ fuel r, get_comments (fun _ _ => (⟨[], none⟩ : PageResponse)) 5 fuel =
      some r) :=
  ⟨fun _ s => Nat.zero_le s,
   (pagination_termination (fun _ _ => (⟨[], none⟩ : PageResponse)) 5
      (fun _ s => Nat.zero_le s) (Or.inl ⟨0, fun _ => rfl⟩)).1⟩

/-- C3: in both the sentiment and the language statistics, every entry's
percentage is 100 * count / total rounded to one decimal place, the
counts sum to the number of analyzed comments, and every distinct label
occurring in the input appears exactly once - rounding never loses or
duplicates a category. -/
theorem statistics_invariants (sentiments : List String)
    (detect lookup : String → Option String) (texts : List String)
    (h1 : sentiments ≠ []) (h2 : texts ≠ []) :
    (∀ s ∈ get_sentiment_statistics sentiments,
        s.count = sentiments.count s.name ∧
        s.percentage =
          pyRound1 (100 * (s.count : ℚ) / (sentiments.length : ℚ)))
  ∧ ((get_sentiment_statistics sentiments).map (fun s => s.count)).sum =
      sentiments.length
  ∧ ((get_sentiment_statistics sentiments).map (fun s => s.name)).Nodup
  ∧ (∀ a, a ∈ (get_sentiment_statistics sentiments).map (fun s => s.name) ↔
        a ∈ sentiments)
  ∧ (∀ s ∈ get_language_statistics detect lookup texts,
        s.count = (texts.map (classify_language detect lookup)).count s.name ∧
        s.percentage = pyRound1 (100 * (s.count : ℚ) / (texts.length : ℚ)))
  ∧ ((get_language_statistics detect lookup texts).map (fun s => s.count)).sum
      = texts.length
  ∧ ((get_language_statistics detect lookup texts).map (fun s => s.name)).Nodup
  ∧ (∀ a,
      a ∈ (get_language_statistics detect lookup texts).map (fun s => s.name) ↔
        a ∈ texts.map (classify_language detect lookup)) := by
  have key : ∀ (labels : List String) (total : Nat),
      ∀ s ∈ aggregateStats labels total,
        s.count = labels.count s.name ∧
        s.percentage = pyRound1 (100 * (s.count : ℚ) / (total : ℚ)) := by
    intro labels total s hs
    obtain ⟨hc, hp⟩ := aggregateStats_fields s labels total hs
    refine ⟨hc, ?_⟩
    rw [hp]
    congr 1
    ring
  refine ⟨key sentiments sentiments.length, aggregateStats_sum_count _ _,
    aggregateStats_names_nodup _ _, aggregateStats_mem_name _ _,
    key _ texts.length, ?_, aggregateStats_names_nodup _ _,
    aggregateStats_mem_name _ _⟩
  rw [show get_language_statistics detect lookup texts =
      aggregateStats (texts.map (classify_language detect lookup)) texts.length
    from rfl]
  rw [aggregateStats_sum_count, List.length_map]

/-- Witness for C3: the counts of the sentiment statistics of a concrete
three-comment run sum to the number of comments. -/
theorem statistics_invariants_witness :
    (["positive", "negative", "neutral"] : List String) ≠ []
  ∧ ((get_sentiment_statistics ["positive", "negative", "neutral"]).map
      (fun s => s.count)).sum =
      (["positive", "negative", "neutral"] : List String).length :=
  ⟨by decide,
   (statistics_invariants ["positive", "negative", "neutral"] (fun _ => none)
      (fun _ => none) ["hello"] (by decide) (by decide)).2.1⟩

/-- C4: both statistics lists are sorted by count descending and the
sort is stable over discovery order: filtering the output by any fixed
count value returns exactly the tally entries in first-seen order, and
on the example discovery sequence en, fr, de with counts 5, 5, 3 the
output order is en, fr, de - not alphabetical or reversed. -/
theorem statistics_ranking_stability (sentiments : List String)
    (detect lookup : String → Option String) (texts : List String) (c : Nat) :
    (get_sentiment_statistics sentiments).Pairwise
      (fun a b => b.count ≤ a.count)
  ∧ (get_language_statistics detect lookup texts).Pairwise
      (fun a b => b.count ≤ a.count)
  ∧ (get_sentiment_statistics sentiments).filter (fun s => s.count == c) =
      (tallyStats sentiments sentiments.length).filter (fun s => s.count == c)
  ∧ (get_language_statistics detect lookup texts).filter
      (fun s => s.count == c) =
      (tallyStats (texts.map (classify_language detect lookup))
        texts.length).filter (fun s => s.count == c)
  ∧ (get_language_statistics (fun t => some t) (fun _ => none)
      ["en", "fr", "de", "en", "fr", "de", "en", "fr", "de", "en", "fr",
        "en", "fr"]).map (fun s => s.name) = ["en", "fr", "de"]
  ∧ (get_language_statistics (fun t => some t) (fun _ => none)
      ["en", "fr", "de", "en", "fr", "de", "en", "fr", "de", "en", "fr",
        "en", "fr"]).map (fun s => s.count) = [5, 5, 3] := by
  refine ⟨aggregateStats_pairwise _ _, aggregateStats_pairwise _ _,
    aggregateStats_filter _ _ c, aggregateStats_filter _ _ c, ?_, ?_⟩
  · rw [get_language_statistics_eval]
    decide
  · rw [get_language_statistics_eval]
    decide

/-- Witness for C4: sortedness of a concrete sentiment breakdown. -/
theorem statistics_ranking_stability_witness :
    (get_sentiment_statistics ["positive", "positive", "negative"]).Pairwise
      (fun a b => b.count ≤ a.count) :=
  (statistics_ranking_stability ["positive", "positive", "negative"]
    (fun _ => none) (fun _ => none) [] 0).1

end CheckVibe
